import Mathlib

/-!
Shallow embedding of `td_authentication.py` (class `TDAuthentication`):
an OAuth 2.0 token-lifecycle manager for the TD Ameritrade API.

Modelling conventions:
* `datetime` instants and `timedelta` values are integers counting seconds.
* Each operation receives an `Env` holding the current time (`env.now`, the
  value of `datetime.now()` during the operation) and the replies of the
  external collaborators: the browser-driven authorization-code retrieval
  and the token endpoint.
* The mutable object is `TDState`; operations return the new state together
  with the trace of HTTP POSTs sent to the token endpoint.
* Python expressions that raise `TypeError` on `None` arithmetic or
  comparison, and `ValueError` from URL parsing, are modelled with
  `Except String`.
* The pickle persistence file `./{user}refreshtoken.pickle` is the `file`
  field of the state: `none` = absent, `some (tok, exp)` = the stored pair.
-/

namespace TDAuth

/-- Configuration dictionary `td_config` supplied by the caller. -/
structure TDConfig where
  client_id : String
  redirect_uri : String
  user : String
  account_id : String
deriving DecidableEq

/-- The `self._tokens` dictionary. -/
structure Tokens where
  access_token : Option String
  access_expiration : Option Int
  refresh_token : Option String
  refresh_expiration : Option Int
deriving DecidableEq

/-- Status code and parsed JSON body of a token-endpoint reply. -/
structure TokenResponse where
  status_code : Int
  access_token : String
  refresh_token : String
deriving DecidableEq

/-- One HTTP POST to the token endpoint. -/
inductive Request where
  | authCodeExchange (code : Option String)
  | refreshGrant (refresh_token : Option String) (client_id : String)
deriving DecidableEq

/-- True exactly on refresh-grant requests. -/
def Request.isRefreshGrant : Request → Bool
  | Request.authCodeExchange _ => false
  | Request.refreshGrant _ _ => true

/-- Environment of one operation: the current time and the collaborator
replies (authorization codes and token-endpoint responses per attempt). -/
structure Env where
  now : Int
  accessCode : Nat → Option String
  codeResp : Nat → TokenResponse
  refreshResp : TokenResponse

/-- Whole state of a `TDAuthentication` instance, plus the persistence file. -/
structure TDState where
  td_config : TDConfig
  store_refresh_token : Bool
  is_single_access : Bool
  tokens : Tokens
  logged_in_state : Bool
  file : Option (String × Int)
deriving DecidableEq

/-- Class constant `ACCESS_DURATION` (seconds). -/
def ACCESS_DURATION : Int := 1800

/-- Class constant `REFRESH_DURATION` (seconds). -/
def REFRESH_DURATION : Int := 7776000

/-- Message of the `TypeError` raised by `None - timedelta(...)`. -/
def typeErrorSub : String := "TypeError: unsupported operand for -: NoneType and timedelta"

/-- Message of the `TypeError` raised by `None < datetime.now()`. -/
def typeErrorCmp : String := "TypeError: comparison not supported between NoneType and datetime"

/-- Embeds `_update_access_token`: store the returned access token and set
its expiration to now plus `ACCESS_DURATION`; mark logged in. -/
def _update_access_token (now : Int) (r : TokenResponse) (s : TDState) : TDState :=
  { s with
    tokens := { s.tokens with
      access_token := some r.access_token,
      access_expiration := some (now + ACCESS_DURATION) },
    logged_in_state := true }

/-- Embeds `_update_refresh_token`: store the returned refresh token and set
its expiration to now plus `REFRESH_DURATION`; when `store_refresh_token`
is set, also pickle the pair to the per-user file. -/
def _update_refresh_token (now : Int) (r : TokenResponse) (s : TDState) : TDState :=
  let s1 := { s with
    tokens := { s.tokens with
      refresh_token := some r.refresh_token,
      refresh_expiration := some (now + REFRESH_DURATION) } }
  if s1.store_refresh_token then
    { s1 with file := some (r.refresh_token, now + REFRESH_DURATION) }
  else s1

/-- Embeds the retry loop of `_get_access_token`: `i` numbers the current
attempt (indexing the environment replies), `fuel` the remaining attempts.
Each attempt obtains an authorization code and posts it; on 200 the refresh
token is updated (unless in single-access mode) and then the access token;
on non-200 the logged-in flag is cleared and the loop retries. -/
def get_access_token_go (env : Env) : Nat → Nat → TDState → TDState × List Request
  | _, 0, s => (s, [])
  | i, fuel + 1, s =>
    if (env.codeResp i).status_code = 200 then
      (_update_access_token env.now (env.codeResp i)
        (if s.is_single_access then s else _update_refresh_token env.now (env.codeResp i) s),
        [Request.authCodeExchange (env.accessCode i)])
    else
      ((get_access_token_go env (i + 1) fuel { s with logged_in_state := false }).1,
        Request.authCodeExchange (env.accessCode i) ::
          (get_access_token_go env (i + 1) fuel { s with logged_in_state := false }).2)

/-- Embeds `_get_access_token` with its default `max_retries = 3`. -/
def _get_access_token (env : Env) (s : TDState) : TDState × List Request :=
  get_access_token_go env 0 3 s

/-- Embeds `_request_refresh_token`: the refresh-grant POST that it sends. -/
def _request_refresh_token (s : TDState) : Request :=
  Request.refreshGrant s.tokens.refresh_token s.td_config.client_id

/-- Body of `_refresh_access_token` once `refresh_expiration` is known to be
the set value `re`: if the refresh token is within 1 day (86400 s) of its
expiration, fall back to full authentication; otherwise send the refresh
grant, and on non-200 clear the logged-in flag and fall back to full
authentication, on 200 update the access token only. -/
def refresh_access_token_body (env : Env) (re : Int) (s : TDState) : TDState × List Request :=
  if re - 86400 < env.now then
    _get_access_token env s
  else if env.refreshResp.status_code ≠ 200 then
    ((_get_access_token env { s with logged_in_state := false }).1,
      _request_refresh_token s ::
        (_get_access_token env { s with logged_in_state := false }).2)
  else
    (_update_access_token env.now env.refreshResp s, [_request_refresh_token s])

/-- Embeds `_refresh_access_token`; with `refresh_expiration` unset the
subtraction `None - timedelta(days=1)` raises `TypeError`. -/
def _refresh_access_token (env : Env) (s : TDState) : Except String (TDState × List Request) :=
  match s.tokens.refresh_expiration with
  | none => Except.error typeErrorSub
  | some re => Except.ok (refresh_access_token_body env re s)

/-- The in-memory state built by `__init__` before `_initialize_authentication`. -/
def init_state (cfg : TDConfig) (store single : Bool) (fs : Option (String × Int)) : TDState :=
  { td_config := cfg, store_refresh_token := store, is_single_access := single,
    tokens := { access_token := none, access_expiration := none,
                refresh_token := none, refresh_expiration := none },
    logged_in_state := false, file := fs }

/-- Embeds `_initialize_authentication`: if the per-user pickle file exists
then either delete it and fully authenticate (persistence disabled or
single-access) or load the stored pair and refresh; with no file, fully
authenticate. Total: on the refresh path the loaded expiration is set. -/
def _init_authentication (env : Env) (s : TDState) : TDState × List Request :=
  match s.file with
  | some (rt, re) =>
    if ¬ s.store_refresh_token ∨ s.is_single_access then
      _get_access_token env { s with file := none }
    else
      refresh_access_token_body env re
        { s with tokens := { s.tokens with
            refresh_token := some rt, refresh_expiration := some re } }
  | none => _get_access_token env s

/-- Embeds `__init__`: build the fresh state, then run
`_initialize_authentication` against the persistence file `fs`. -/
def td_init (env : Env) (cfg : TDConfig) (store single : Bool)
    (fs : Option (String × Int)) : TDState × List Request :=
  _init_authentication env (init_state cfg store single fs)

/-- Embeds `_authenticate`: in single-access mode renew by full
authentication when the access token is within 30 s of expiry; otherwise
refresh when it is within 5 s of expiry; else do nothing. With
`access_expiration` unset, `None - timedelta(...)` raises `TypeError`
(in single-access mode at the first condition, otherwise at the `elif`). -/
def _authenticate (env : Env) (s : TDState) : Except String (TDState × List Request) :=
  match s.tokens.access_expiration with
  | none => Except.error typeErrorSub
  | some ae =>
    if s.is_single_access ∧ ae - 30 < env.now then
      Except.ok (_get_access_token env s)
    else if ae - 5 < env.now then
      _refresh_access_token env s
    else
      Except.ok (s, [])

/-- Embeds `__repr__`: clear the logged-in flag when the access token has
expired, then return the flag as a string. With `access_expiration` unset,
`None < datetime.now()` raises `TypeError`. -/
def td_repr (now : Int) (s : TDState) : Except String (TDState × String) :=
  match s.tokens.access_expiration with
  | none => Except.error typeErrorCmp
  | some ae =>
    let s1 := if ae < now then { s with logged_in_state := false } else s
    Except.ok (s1, if s1.logged_in_state then "True" else "False")

/-- Characters allowed in a URL scheme (`urllib.parse.scheme_chars`). -/
def scheme_chars : List Char :=
  "abcdefghijklmnopqrstuvwxyzABCDEFGHIJKLMNOPQRSTUVWXYZ0123456789+-.".data

/-- Splits a character list at the first occurrence of `c`, dropping the
separator; `none` when `c` does not occur. -/
def splitFirst (c : Char) : List Char → Option (List Char × List Char)
  | [] => none
  | x :: xs =>
    if x = c then some ([], xs)
    else
      match splitFirst c xs with
      | none => none
      | some (a, b) => some (x :: a, b)

/-- Scheme extraction of `urlsplit`: the first colon must have a nonempty
prefix made only of scheme characters; the scheme is lowercased. -/
def schemeSplit (l : List Char) : Option (List Char × List Char) :=
  match splitFirst ':' l with
  | none => none
  | some (pre, rest) =>
    if pre ≠ [] ∧ pre.all (fun c => decide (c ∈ scheme_chars)) then
      some (pre.map Char.toLower, rest)
    else none

/-- Delimiters ending the netloc component (`urllib.parse._splitnetloc`). -/
def netlocEnd (c : Char) : Bool := c == '/' || c == '?' || c == '#'

/-- Result of `urllib.parse.urlsplit`. -/
structure UrlSplitResult where
  scheme : String
  netloc : String
  path : String
  query : String
  fragment : String
deriving DecidableEq

/-- Embeds `urllib.parse.urlsplit` (fragments allowed): extract the scheme,
then the `//`-netloc (raising `ValueError` on an unbalanced bracket), then
split off fragment and query. -/
def urlsplitE (url : String) (defaultScheme : String) : Except String UrlSplitResult :=
  let (scheme, rest) :=
    match schemeSplit url.data with
    | some (sc, r) => (String.mk sc, r)
    | none => (defaultScheme, url.data)
  let (netlocR, rest1) :=
    if rest.take 2 = ['/', '/'] then
      ((rest.drop 2).takeWhile (fun c => ! netlocEnd c),
        (rest.drop 2).dropWhile (fun c => ! netlocEnd c))
    else ([], rest)
  if ('[' ∈ netlocR ∧ ']' ∉ netlocR) ∨ (']' ∈ netlocR ∧ '[' ∉ netlocR) then
    Except.error "ValueError: Invalid IPv6 URL"
  else
    let (rest2, frag) :=
      match splitFirst '#' rest1 with
      | some (a, b) => (a, b)
      | none => (rest1, [])
    let (path, query) :=
      match splitFirst '?' rest2 with
      | some (a, b) => (a, b)
      | none => (rest2, [])
    Except.ok ⟨scheme, String.mk netlocR, String.mk path, String.mk query, String.mk frag⟩

/-- Schemes for which `urlparse` splits `;`-parameters (`uses_params`). -/
def uses_params : List String :=
  ["", "ftp", "hdl", "prospero", "http", "imap", "https", "shttp", "rtsp",
    "rtspu", "sip", "sips", "mms", "sftp", "tel"]

/-- Embeds `urllib.parse._splitparams`: split the `;`-parameters off the
last path segment. -/
def splitParams (l : List Char) : List Char × List Char :=
  if '/' ∈ l then
    let lastSeg := (l.reverse.takeWhile (fun c => c != '/')).reverse
    let stem := l.take (l.length - lastSeg.length)
    match splitFirst ';' lastSeg with
    | some (a, b) => (stem ++ a, b)
    | none => (l, [])
  else
    match splitFirst ';' l with
    | some (a, b) => (a, b)
    | none => (l, [])

/-- Result of `urllib.parse.urlparse`. -/
structure UrlParseResult where
  scheme : String
  netloc : String
  path : String
  params : String
  query : String
  fragment : String
deriving DecidableEq

/-- Embeds `urllib.parse.urlparse`: `urlsplit`, then parameter splitting for
schemes in `uses_params`. -/
def urlparseE (url : String) (defaultScheme : String) : Except String UrlParseResult :=
  match urlsplitE url defaultScheme with
  | Except.error e => Except.error e
  | Except.ok u =>
    if u.scheme ∈ uses_params ∧ ';' ∈ u.path.data then
      let (p, pa) := splitParams u.path.data
      Except.ok ⟨u.scheme, u.netloc, String.mk p, String.mk pa, u.query, u.fragment⟩
    else
      Except.ok ⟨u.scheme, u.netloc, u.path, "", u.query, u.fragment⟩

/-- Tests whether a string starts with two slashes. -/
def startsSlashSlash (p : String) : Bool :=
  match p.data with
  | '/' :: '/' :: _ => true
  | _ => false

/-- Tests whether a string starts with a slash. -/
def startsSlash (p : String) : Bool :=
  match p.data with
  | '/' :: _ => true
  | _ => false

/-- Embeds `urllib.parse.urlunsplit`. -/
def urlunsplit (scheme netloc path query fragment : String) : String :=
  let p1 :=
    if netloc ≠ "" ∨ startsSlashSlash path = true then
      "//" ++ netloc ++ (if path ≠ "" ∧ startsSlash path = false then "/" ++ path else path)
    else path
  let p2 := if scheme ≠ "" then scheme ++ ":" ++ p1 else p1
  let p3 := if query ≠ "" then p2 ++ "?" ++ query else p2
  if fragment ≠ "" then p3 ++ "#" ++ fragment else p3

/-- Embeds `urllib.parse.urlunparse`. -/
def urlunparse (u : UrlParseResult) : String :=
  let p := if u.params ≠ "" then u.path ++ ";" ++ u.params else u.path
  urlunsplit u.scheme u.netloc p u.query u.fragment

/-- The fixed API base URL that `headers` joins against. -/
def td_base : String := "https://api.tdameritrade.com/v1/"

/-- Netloc of `td_base`. -/
def td_bnetloc : String := "api.tdameritrade.com"

/-- Path of `td_base`. -/
def td_bpath : String := "/v1/"

/-- Splits a character list on every occurrence of `c` (Python split with a
one-character separator; an empty input yields one empty part). -/
def splitOnChar (c : Char) : List Char → List (List Char)
  | [] => [[]]
  | x :: xs =>
    let r := splitOnChar c xs
    if x = c then [] :: r
    else
      match r with
      | [] => [[x]]
      | y :: ys => (x :: y) :: ys

/-- Joins parts with a slash separator (Python join). -/
def joinSlash : List (List Char) → List Char
  | [] => []
  | [y] => y
  | y :: ys => y ++ '/' :: joinSlash ys

/-- Base path split on `/`, with the final (file) part removed when
nonempty, as in `urljoin`; for `/v1/` the final part is empty and kept. -/
def base_parts : List (List Char) :=
  let bp := splitOnChar '/' td_bpath.data
  if bp.getLast? ≠ some [] then bp.dropLast else bp

/-- Drops empty segments, keeping the final element even when empty
(the `segments[1:-1] = filter(None, segments[1:-1])` step, tail part). -/
def filterMid : List (List Char) → List (List Char)
  | [] => []
  | [y] => [y]
  | y :: ys => if y = [] then filterMid ys else y :: filterMid ys

/-- Keeps the first element, filters empty middle segments, keeps the last. -/
def filterMiddle : List (List Char) → List (List Char)
  | [] => []
  | x :: xs => x :: filterMid xs

/-- Resolves `.` and `..` segments as in `urljoin`: `..` pops the last kept
segment (ignoring pops of an empty list); a trailing `.` or `..` leaves a
trailing empty segment. -/
def resolveSegments (segments : List (List Char)) : List (List Char) :=
  let res := segments.foldl
    (fun acc seg =>
      if seg = ['.', '.'] then acc.dropLast
      else if seg = ['.'] then acc
      else acc ++ [seg]) []
  if segments.getLast? = some ['.'] ∨ segments.getLast? = some ['.', '.'] then res ++ [[]]
  else res

/-- Embeds `urllib.parse.urljoin` specialized to the fixed base `td_base`
(parsed: scheme `https`, netloc `api.tdameritrade.com`, path `/v1/`, empty
params, query and fragment). Since the relative URL is parsed with default
scheme `https`, which is in both `uses_relative` and `uses_netloc`, the
general algorithm reduces to the cases below. -/
def urljoin_td (url : String) : Except String String :=
  if url = "" then Except.ok td_base
  else
    match urlparseE url "https" with
    | Except.error e => Except.error e
    | Except.ok u =>
      if u.scheme ≠ "https" then Except.ok url
      else if u.netloc ≠ "" then Except.ok (urlunparse u)
      else if u.path = "" ∧ u.params = "" then
        Except.ok (urlunparse ⟨"https", td_bnetloc, td_bpath, "", u.query, u.fragment⟩)
      else
        let relSegs := splitOnChar '/' u.path.data
        let segs :=
          if startsSlash u.path = true then relSegs
          else filterMiddle (base_parts ++ relSegs)
        let joined := joinSlash (resolveSegments segs)
        let path := if joined = [] then "/" else String.mk joined
        Except.ok (urlunparse ⟨"https", td_bnetloc, path, u.params, u.query, u.fragment⟩)

/-- Embeds `endpoint.lstrip('/')`. -/
def lstripSlash (s : String) : String := String.mk (s.data.dropWhile (fun c => c == '/'))

/-- Python `str(...)` of an optional string: `None` renders as `"None"`
inside the f-string building the bearer header. -/
def pyStr : Option String → String
  | none => "None"
  | some t => t

/-- Result of `headers`: either a resolved URL with a header mapping, or
the `(None, None)` pair returned when not logged in. -/
inductive HeadersResult where
  | pair (url : String) (hdrs : List (String × String))
  | nonePair
deriving DecidableEq

/-- Embeds the `headers` method: authenticate, and when logged in resolve
the endpoint (pass through when its scheme is http or https, otherwise join
the stripped endpoint against `td_base`) and build the header mapping with
the bearer entry, plus the JSON content type when `mode` requests it; when
not logged in return `(None, None)`. -/
def headers (env : Env) (endpoint : String) (mode : Option String) (s : TDState) :
    Except String (TDState × List Request × HeadersResult) :=
  match _authenticate env s with
  | Except.error e => Except.error e
  | Except.ok (s1, tr) =>
    if s1.logged_in_state then
      match urlparseE endpoint "" with
      | Except.error e => Except.error e
      | Except.ok pr =>
        let urlE :=
          if pr.scheme = "http" ∨ pr.scheme = "https" then Except.ok endpoint
          else urljoin_td (lstripSlash endpoint)
        match urlE with
        | Except.error e => Except.error e
        | Except.ok url =>
          let merged := [("Authorization", "Bearer " ++ pyStr s1.tokens.access_token)]
          let merged1 :=
            if mode = some "application/json" then
              merged ++ [("Content-type", "application/json")]
            else merged
          Except.ok (s1, tr, HeadersResult.pair url merged1)
    else Except.ok (s1, tr, HeadersResult.nonePair)

/-- Python value returned by the `access_token` property: the stored token
(possibly `None`) when logged in, the bool `False` otherwise. -/
inductive TokenValue where
  | str (v : Option String)
  | boolFalse
deriving DecidableEq

/-- Embeds the `access_token` property: authenticate, then return the stored
access token when logged in and `False` otherwise. -/
def access_token (env : Env) (s : TDState) :
    Except String (TDState × List Request × TokenValue) :=
  match _authenticate env s with
  | Except.error e => Except.error e
  | Except.ok (s1, tr) =>
    if s1.logged_in_state then Except.ok (s1, tr, TokenValue.str s1.tokens.access_token)
    else Except.ok (s1, tr, TokenValue.boolFalse)

/-- Projections of `_update_access_token`: it touches only the access token,
its expiration, and the logged-in flag. -/
theorem update_access_proj (now : Int) (r : TokenResponse) (s : TDState) :
    (_update_access_token now r s).td_config = s.td_config
    ∧ (_update_access_token now r s).store_refresh_token = s.store_refresh_token
    ∧ (_update_access_token now r s).is_single_access = s.is_single_access
    ∧ (_update_access_token now r s).tokens.refresh_token = s.tokens.refresh_token
    ∧ (_update_access_token now r s).tokens.refresh_expiration = s.tokens.refresh_expiration
    ∧ (_update_access_token now r s).file = s.file
    ∧ (_update_access_token now r s).tokens.access_token = some r.access_token
    ∧ (_update_access_token now r s).tokens.access_expiration = some (now + ACCESS_DURATION)
    ∧ (_update_access_token now r s).logged_in_state = true := by
  simp [_update_access_token]

/-- Projections of `_update_refresh_token`: it touches only the refresh
token, its expiration, and (when persisting) the file. -/
theorem update_refresh_proj (now : Int) (r : TokenResponse) (s : TDState) :
    (_update_refresh_token now r s).td_config = s.td_config
    ∧ (_update_refresh_token now r s).store_refresh_token = s.store_refresh_token
    ∧ (_update_refresh_token now r s).is_single_access = s.is_single_access
    ∧ (_update_refresh_token now r s).tokens.access_token = s.tokens.access_token
    ∧ (_update_refresh_token now r s).tokens.access_expiration = s.tokens.access_expiration
    ∧ (_update_refresh_token now r s).logged_in_state = s.logged_in_state
    ∧ (_update_refresh_token now r s).tokens.refresh_token = some r.refresh_token
    ∧ (_update_refresh_token now r s).tokens.refresh_expiration = some (now + REFRESH_DURATION) := by
  by_cases hs : s.store_refresh_token = true <;>
    simp [_update_refresh_token, hs]

/-- The retry loop sends at most `fuel` requests. -/
theorem go_len (env : Env) :
    ∀ fuel i s, (get_access_token_go env i fuel s).2.length ≤ fuel := by
  intro fuel
  induction fuel with
  | zero => intro i s; simp [get_access_token_go]
  | succ n ih =>
    intro i s
    by_cases h : (env.codeResp i).status_code = 200
    · simp [get_access_token_go, if_pos h]
    · simp only [get_access_token_go, if_neg h, List.length_cons]
      exact Nat.succ_le_succ (ih (i + 1) { s with logged_in_state := false })

/-- Every request sent by the retry loop is an authorization-code exchange. -/
theorem go_trace_auth (env : Env) :
    ∀ fuel i s, ∀ q ∈ (get_access_token_go env i fuel s).2,
      ∃ c, q = Request.authCodeExchange c := by
  intro fuel
  induction fuel with
  | zero => intro i s q hq; simp [get_access_token_go] at hq
  | succ n ih =>
    intro i s q hq
    by_cases h : (env.codeResp i).status_code = 200
    · simp only [get_access_token_go, if_pos h, List.mem_singleton] at hq
      exact ⟨_, hq⟩
    · simp only [get_access_token_go, if_neg h, List.mem_cons] at hq
      rcases hq with hq | hq
      · exact ⟨_, hq⟩
      · exact ih (i + 1) { s with logged_in_state := false } q hq

/-- The retry loop never changes the configuration or the mode flags. -/
theorem go_config (env : Env) :
    ∀ fuel i s, (get_access_token_go env i fuel s).1.td_config = s.td_config
      ∧ (get_access_token_go env i fuel s).1.store_refresh_token = s.store_refresh_token
      ∧ (get_access_token_go env i fuel s).1.is_single_access = s.is_single_access := by
  intro fuel
  induction fuel with
  | zero => intro i s; simp [get_access_token_go]
  | succ n ih =>
    intro i s
    by_cases h : (env.codeResp i).status_code = 200
    · simp only [get_access_token_go, if_pos h]
      by_cases hs : s.is_single_access = true
      · rw [if_pos hs]
        obtain ⟨g1, g2, g3, -⟩ := update_access_proj env.now (env.codeResp i) s
        exact ⟨g1, g2, g3⟩
      · rw [if_neg hs]
        obtain ⟨h1, h2, h3, -⟩ := update_refresh_proj env.now (env.codeResp i) s
        obtain ⟨g1, g2, g3, -⟩ := update_access_proj env.now (env.codeResp i)
          (_update_refresh_token env.now (env.codeResp i) s)
        exact ⟨g1.trans h1, g2.trans h2, g3.trans h3⟩
    · simpa only [get_access_token_go, if_neg h] using
        ih (i + 1) { s with logged_in_state := false }

/-- In single-access mode the retry loop leaves the refresh-token state and
the persistence file untouched. -/
theorem go_single_frame (env : Env) :
    ∀ fuel i s, s.is_single_access = true →
      (get_access_token_go env i fuel s).1.tokens.refresh_token = s.tokens.refresh_token
      ∧ (get_access_token_go env i fuel s).1.tokens.refresh_expiration = s.tokens.refresh_expiration
      ∧ (get_access_token_go env i fuel s).1.file = s.file := by
  intro fuel
  induction fuel with
  | zero => intro i s _; simp [get_access_token_go]
  | succ n ih =>
    intro i s hs
    by_cases h : (env.codeResp i).status_code = 200
    · simp only [get_access_token_go, if_pos h]
      rw [if_pos hs]
      obtain ⟨-, -, -, g4, g5, g6, -⟩ := update_access_proj env.now (env.codeResp i) s
      exact ⟨g4, g5, g6⟩
    · simpa only [get_access_token_go, if_neg h] using
        ih (i + 1) { s with logged_in_state := false } hs

/-- Any expiration the retry loop sets equals now plus the fixed duration. -/
theorem go_expiry (env : Env) :
    ∀ fuel i s,
      ((get_access_token_go env i fuel s).1.tokens.access_expiration = s.tokens.access_expiration
        ∨ (get_access_token_go env i fuel s).1.tokens.access_expiration
            = some (env.now + ACCESS_DURATION))
      ∧ ((get_access_token_go env i fuel s).1.tokens.refresh_expiration
            = s.tokens.refresh_expiration
        ∨ (get_access_token_go env i fuel s).1.tokens.refresh_expiration
            = some (env.now + REFRESH_DURATION)) := by
  intro fuel
  induction fuel with
  | zero => intro i s; simp [get_access_token_go]
  | succ n ih =>
    intro i s
    by_cases h : (env.codeResp i).status_code = 200
    · simp only [get_access_token_go, if_pos h]
      by_cases hs : s.is_single_access = true
      · rw [if_pos hs]
        obtain ⟨-, -, -, -, g5, -, -, g8, -⟩ := update_access_proj env.now (env.codeResp i) s
        exact ⟨Or.inr g8, Or.inl g5⟩
      · rw [if_neg hs]
        obtain ⟨-, -, -, -, h5, -, -, h8⟩ :=
          update_refresh_proj env.now (env.codeResp i) s
        obtain ⟨-, -, -, -, g5, -, -, g8, -⟩ :=
          update_access_proj env.now (env.codeResp i)
            (_update_refresh_token env.now (env.codeResp i) s)
        refine ⟨Or.inr g8, Or.inr ?_⟩
        rw [g5, h8]
    · simpa only [get_access_token_go, if_neg h] using
        ih (i + 1) { s with logged_in_state := false }

/-- Any expiration `refresh_access_token_body` sets equals now plus the
fixed duration, except that the refresh expiration may stay as it was. -/
theorem body_expiry (env : Env) (re : Int) (s : TDState) :
    ((refresh_access_token_body env re s).1.tokens.access_expiration
        = s.tokens.access_expiration
      ∨ (refresh_access_token_body env re s).1.tokens.access_expiration
          = some (env.now + ACCESS_DURATION))
    ∧ ((refresh_access_token_body env re s).1.tokens.refresh_expiration
          = s.tokens.refresh_expiration
      ∨ (refresh_access_token_body env re s).1.tokens.refresh_expiration
          = some (env.now + REFRESH_DURATION)) := by
  unfold refresh_access_token_body _get_access_token
  split
  · exact go_expiry env 3 0 s
  · split
    · exact go_expiry env 3 0 { s with logged_in_state := false }
    · obtain ⟨-, -, -, -, g5, -, -, g8, -⟩ := update_access_proj env.now env.refreshResp s
      exact ⟨Or.inr g8, Or.inl g5⟩

/-- With a set access expiration at least 30 seconds away, `_authenticate`
is a no-operation in both modes. -/
theorem authenticate_noop (env : Env) (s : TDState) (ae : Int)
    (hae : s.tokens.access_expiration = some ae)
    (hfresh : ¬ (ae - 30 < env.now)) :
    _authenticate env s = Except.ok (s, []) := by
  have h2 : ¬ (ae - 5 < env.now) := by omega
  have h1 : ¬ (s.is_single_access = true ∧ ae - 30 < env.now) := fun h => hfresh h.2
  unfold _authenticate
  rw [hae]
  simp only [if_neg h1, if_neg h2]

/-- Example configuration used in concrete instantiations. -/
def cfg0 : TDConfig := ⟨"cid", "https://localhost", "alice", "0001"⟩

/-- A failing token-endpoint reply (HTTP 500). -/
def respFail : TokenResponse := ⟨500, "", ""⟩

/-- A successful token-endpoint reply. -/
def respOK : TokenResponse := ⟨200, "ATOK", "RTOK"⟩

/-- Environment at time 0 whose token endpoint always replies 500 and whose
browser never yields a code. -/
def envFail : Env := ⟨0, fun _ => none, fun _ => respFail, respFail⟩

/-- Environment at time 0 whose token endpoint always replies 200. -/
def envOK : Env := ⟨0, fun _ => some "CODE", fun _ => respOK, respOK⟩

/-- A logged-in normal-mode state with fresh tokens (times from `envOK.now = 0`). -/
def sLive : TDState :=
  ⟨cfg0, true, false, ⟨some "ATOK", some 1000000, some "RTOK", some 9000000⟩, true,
    some ("RTOK", 9000000)⟩

/-- A single-access state whose access token is about to expire. -/
def sSingle : TDState := ⟨cfg0, true, true, ⟨some "ATOK", some 10, none, none⟩, true, none⟩

/-- A normal-mode state whose refresh token is within one day of expiry. -/
def sNear : TDState :=
  ⟨cfg0, true, false, ⟨some "ATOK", some 3, some "RTOK", some 50000⟩, true,
    some ("RTOK", 50000)⟩

/-- C2: with `access_expiration` set to `ae`, `_authenticate` in
single-access mode performs full authentication exactly when `ae` is within
30 seconds of now or already past, and the requests it sends then are never
refresh grants; in normal mode it performs a refresh exactly when `ae` is
within 5 seconds of now or already past; in every other case it returns the
state unchanged with no requests. -/
theorem C2_authenticate_policy (env : Env) (s : TDState) (ae : Int)
    (hae : s.tokens.access_expiration = some ae) :
    (s.is_single_access = true →
      _authenticate env s =
        Except.ok (if ae - 30 < env.now then _get_access_token env s else (s, []))
      ∧ ∀ q ∈ (if ae - 30 < env.now then _get_access_token env s else (s, [])).2,
          q.isRefreshGrant = false)
    ∧ (s.is_single_access = false →
      _authenticate env s =
        if ae - 5 < env.now then _refresh_access_token env s else Except.ok (s, [])) := by
  constructor
  · intro hs
    constructor
    · simp only [_authenticate, hae]
      by_cases h30 : ae - 30 < env.now
      · rw [if_pos (And.intro hs h30), if_pos h30]
      · have h5 : ¬ (ae - 5 < env.now) := by omega
        have hns : ¬ (s.is_single_access = true ∧ ae - 30 < env.now) := fun h => h30 h.2
        rw [if_neg hns, if_neg h5, if_neg h30]
    · intro q hq
      by_cases h30 : ae - 30 < env.now
      · rw [if_pos h30] at hq
        unfold _get_access_token at hq
        obtain ⟨c, rfl⟩ := go_trace_auth env 3 0 s q hq
        rfl
      · rw [if_neg h30] at hq
        simp at hq
  · intro hs
    simp only [_authenticate, hae]
    have hns : ¬ (s.is_single_access = true ∧ ae - 30 < env.now) := fun h => by
      simp [hs] at h
    rw [if_neg hns]

/-- C3: when the stored refresh expiration is within one day of now (or
past), `_refresh_access_token` falls back to full authentication, and none
of the requests sent is a refresh grant. -/
theorem C3_refresh_near_expiry (env : Env) (s : TDState) (re : Int)
    (hre : s.tokens.refresh_expiration = some re)
    (hnear : re - 86400 < env.now) :
    _refresh_access_token env s = Except.ok (_get_access_token env s)
    ∧ ∀ q ∈ (_get_access_token env s).2, q.isRefreshGrant = false := by
  constructor
  · simp only [_refresh_access_token, hre, refresh_access_token_body]
    rw [if_pos hnear]
  · intro q hq
    unfold _get_access_token at hq
    obtain ⟨c, rfl⟩ := go_trace_auth env 3 0 s q hq
    rfl

/-- C4: `_get_access_token` sends at most 3 authorization-code exchanges;
every non-200 reply clears the logged-in flag before the retry; and when
all 3 attempts fail the manager ends logged out with tokens and persistence
file unchanged (and, being a total function, without raising). -/
theorem C4_full_auth_retry_policy (env : Env) (s : TDState) :
    (_get_access_token env s).2.length ≤ 3
    ∧ (∀ i fuel, (env.codeResp i).status_code ≠ 200 →
        get_access_token_go env i (fuel + 1) s =
          ((get_access_token_go env (i + 1) fuel { s with logged_in_state := false }).1,
            Request.authCodeExchange (env.accessCode i) ::
              (get_access_token_go env (i + 1) fuel { s with logged_in_state := false }).2))
    ∧ ((∀ i, i < 3 → (env.codeResp i).status_code ≠ 200) →
        _get_access_token env s =
          ({ s with logged_in_state := false },
            [Request.authCodeExchange (env.accessCode 0),
              Request.authCodeExchange (env.accessCode 1),
              Request.authCodeExchange (env.accessCode 2)])) := by
  refine ⟨go_len env 3 0 s, ?_, ?_⟩
  · intro i fuel h
    simp only [get_access_token_go, if_neg h]
  · intro hall
    have h0 := hall 0 (by omega)
    have h1 := hall 1 (by omega)
    have h2 := hall 2 (by omega)
    unfold _get_access_token
    simp [get_access_token_go, h0, h1, h2]

/-- C6: a refresh-grant exchange answered with HTTP 200 updates only the
access token, its expiration and the logged-in flag; the refresh token, its
expiration, the configuration and the persisted file are unchanged. -/
theorem C6_refresh_success_frame (env : Env) (s : TDState) (re : Int)
    (hre : s.tokens.refresh_expiration = some re)
    (hfar : ¬ (re - 86400 < env.now))
    (h200 : env.refreshResp.status_code = 200) :
    ∃ s1,
      _refresh_access_token env s =
        Except.ok (s1, [Request.refreshGrant s.tokens.refresh_token s.td_config.client_id])
      ∧ s1.tokens.access_token = some env.refreshResp.access_token
      ∧ s1.tokens.access_expiration = some (env.now + ACCESS_DURATION)
      ∧ s1.logged_in_state = true
      ∧ s1.tokens.refresh_token = s.tokens.refresh_token
      ∧ s1.tokens.refresh_expiration = s.tokens.refresh_expiration
      ∧ s1.td_config = s.td_config
      ∧ s1.store_refresh_token = s.store_refresh_token
      ∧ s1.is_single_access = s.is_single_access
      ∧ s1.file = s.file := by
  refine ⟨_update_access_token env.now env.refreshResp s, ?_, ?_⟩
  · have hn : ¬ (env.refreshResp.status_code ≠ 200) := fun h => h h200
    simp only [_refresh_access_token, hre, refresh_access_token_body]
    rw [if_neg hfar, if_neg hn]
    rfl
  · obtain ⟨g1, g2, g3, g4, g5, g6, g7, g8, g9⟩ := update_access_proj env.now env.refreshResp s
    exact ⟨g7, g8, g9, g4, g5, g1, g2, g3, g6⟩

/-- C10: with `access_expiration` unset, the string representation raises a
`TypeError` from comparing `None` with the current time instead of
returning the logged-in flag. -/
theorem C10_repr_type_error (now : Int) (s : TDState)
    (h : s.tokens.access_expiration = none) :
    td_repr now s = Except.error typeErrorCmp := by
  unfold td_repr
  rw [h]

/-- Injectivity of a successful result on both pair components. -/
theorem ok_pair_inj {α β : Type} {a : α × β} {s1 : α} {tr : β}
    (h : (Except.ok a : Except String (α × β)) = Except.ok (s1, tr)) :
    a.1 = s1 ∧ a.2 = tr := by
  injection h with h1
  exact ⟨by rw [h1], by rw [h1]⟩

/-- C7: every token update stamps the corresponding expiration as the update
moment plus the fixed duration: the two update helpers do so directly; full
authentication, refresh and authenticate-before-use either leave an
expiration unchanged or stamp it as now plus the duration; initialization
does the same except that it may carry over exactly the persisted refresh
expiration. -/
theorem C7_expiration_invariant (env : Env) (s : TDState) (r : TokenResponse) (now : Int) :
    (_update_access_token now r s).tokens.access_expiration = some (now + ACCESS_DURATION)
    ∧ (_update_refresh_token now r s).tokens.refresh_expiration
        = some (now + REFRESH_DURATION)
    ∧ ((_get_access_token env s).1.tokens.access_expiration = s.tokens.access_expiration
        ∨ (_get_access_token env s).1.tokens.access_expiration
            = some (env.now + ACCESS_DURATION))
    ∧ ((_get_access_token env s).1.tokens.refresh_expiration = s.tokens.refresh_expiration
        ∨ (_get_access_token env s).1.tokens.refresh_expiration
            = some (env.now + REFRESH_DURATION))
    ∧ (∀ s1 tr, _refresh_access_token env s = Except.ok (s1, tr) →
        (s1.tokens.access_expiration = s.tokens.access_expiration
          ∨ s1.tokens.access_expiration = some (env.now + ACCESS_DURATION))
        ∧ (s1.tokens.refresh_expiration = s.tokens.refresh_expiration
          ∨ s1.tokens.refresh_expiration = some (env.now + REFRESH_DURATION)))
    ∧ (∀ s1 tr, _authenticate env s = Except.ok (s1, tr) →
        (s1.tokens.access_expiration = s.tokens.access_expiration
          ∨ s1.tokens.access_expiration = some (env.now + ACCESS_DURATION))
        ∧ (s1.tokens.refresh_expiration = s.tokens.refresh_expiration
          ∨ s1.tokens.refresh_expiration = some (env.now + REFRESH_DURATION)))
    ∧ (∀ cfg store single rt re,
        ((td_init env cfg store single (some (rt, re))).1.tokens.access_expiration = none
          ∨ (td_init env cfg store single (some (rt, re))).1.tokens.access_expiration
              = some (env.now + ACCESS_DURATION))
        ∧ ((td_init env cfg store single (some (rt, re))).1.tokens.refresh_expiration = none
          ∨ (td_init env cfg store single (some (rt, re))).1.tokens.refresh_expiration
              = some (env.now + REFRESH_DURATION)
          ∨ (td_init env cfg store single (some (rt, re))).1.tokens.refresh_expiration
              = some re))
    ∧ (∀ cfg store single,
        ((td_init env cfg store single none).1.tokens.access_expiration = none
          ∨ (td_init env cfg store single none).1.tokens.access_expiration
              = some (env.now + ACCESS_DURATION))
        ∧ ((td_init env cfg store single none).1.tokens.refresh_expiration = none
          ∨ (td_init env cfg store single none).1.tokens.refresh_expiration
              = some (env.now + REFRESH_DURATION))) := by
  have hrefresh : ∀ s1 tr, _refresh_access_token env s = Except.ok (s1, tr) →
      (s1.tokens.access_expiration = s.tokens.access_expiration
        ∨ s1.tokens.access_expiration = some (env.now + ACCESS_DURATION))
      ∧ (s1.tokens.refresh_expiration = s.tokens.refresh_expiration
        ∨ s1.tokens.refresh_expiration = some (env.now + REFRESH_DURATION)) := by
    intro s1 tr heq
    cases hre : s.tokens.refresh_expiration with
    | none => simp [_refresh_access_token, hre] at heq
    | some re =>
      simp only [_refresh_access_token, hre] at heq
      obtain ⟨h1, -⟩ := ok_pair_inj heq
      rw [← h1]
      have hb := body_expiry env re s
      rw [hre] at hb
      exact hb
  refine ⟨(update_access_proj now r s).2.2.2.2.2.2.2.1,
    (update_refresh_proj now r s).2.2.2.2.2.2.2,
    (go_expiry env 3 0 s).1, (go_expiry env 3 0 s).2, hrefresh, ?_, ?_, ?_⟩
  · intro s1 tr heq
    cases hae : s.tokens.access_expiration with
    | none => simp [_authenticate, hae] at heq
    | some ae =>
      simp only [_authenticate, hae] at heq
      split at heq
      · obtain ⟨h1, -⟩ := ok_pair_inj heq
        rw [← h1]
        have hg := go_expiry env 3 0 s
        rw [hae] at hg
        exact hg
      · split at heq
        · have hr := hrefresh s1 tr heq
          rw [hae] at hr
          exact hr
        · obtain ⟨h1, -⟩ := ok_pair_inj heq
          rw [← h1]
          exact ⟨Or.inl hae, Or.inl rfl⟩
  · intro cfg store single rt re
    by_cases hb : ¬ store = true ∨ single = true
    · simp only [td_init, _init_authentication, init_state]
      rw [if_pos hb]
      constructor
      · exact (go_expiry env 3 0
          { init_state cfg store single (some (rt, re)) with file := none }).1
      · rcases (go_expiry env 3 0
            { init_state cfg store single (some (rt, re)) with file := none }).2 with h | h
        · exact Or.inl h
        · exact Or.inr (Or.inl h)
    · simp only [td_init, _init_authentication, init_state]
      rw [if_neg hb]
      constructor
      · exact (body_expiry env re
          { init_state cfg store single (some (rt, re)) with tokens :=
            { (init_state cfg store single (some (rt, re))).tokens with
              refresh_token := some rt, refresh_expiration := some re } }).1
      · rcases (body_expiry env re
            { init_state cfg store single (some (rt, re)) with tokens :=
              { (init_state cfg store single (some (rt, re))).tokens with
                refresh_token := some rt, refresh_expiration := some re } }).2 with h | h
        · exact Or.inr (Or.inr h)
        · exact Or.inr (Or.inl h)
  · intro cfg store single
    exact ⟨(go_expiry env 3 0 (init_state cfg store single none)).1,
      (go_expiry env 3 0 (init_state cfg store single none)).2⟩

/-- C8: persisting a refresh pair writes exactly the in-memory pair to the
file, and a construction that finds a persisted pair (with persistence on,
normal mode, a far-away expiration and a successful refresh reply) loads
exactly that pair into memory and uses precisely its token in the refresh
grant it sends. -/
theorem C8_persist_roundtrip (env : Env) (cfg : TDConfig) (s : TDState)
    (r : TokenResponse) (now1 : Int) (rt : String) (re : Int)
    (hstore : s.store_refresh_token = true)
    (hfar : ¬ (re - 86400 < env.now))
    (h200 : env.refreshResp.status_code = 200) :
    ((_update_refresh_token now1 r s).file = some (r.refresh_token, now1 + REFRESH_DURATION)
      ∧ (_update_refresh_token now1 r s).tokens.refresh_token = some r.refresh_token
      ∧ (_update_refresh_token now1 r s).tokens.refresh_expiration
          = some (now1 + REFRESH_DURATION))
    ∧ ∃ s1,
        td_init env cfg true false (some (rt, re)) =
          (s1, [Request.refreshGrant (some rt) cfg.client_id])
        ∧ s1.tokens.refresh_token = some rt
        ∧ s1.tokens.refresh_expiration = some re := by
  constructor
  · refine ⟨?_, (update_refresh_proj now1 r s).2.2.2.2.2.2.1,
      (update_refresh_proj now1 r s).2.2.2.2.2.2.2⟩
    simp [_update_refresh_token, hstore]
  · have hn : ¬ (env.refreshResp.status_code ≠ 200) := fun h => h h200
    simp only [td_init, _init_authentication, init_state]
    rw [if_neg (by simp)]
    simp only [refresh_access_token_body]
    rw [if_neg hfar, if_neg hn]
    refine ⟨_, rfl, ?_, ?_⟩
    · exact (update_access_proj env.now env.refreshResp _).2.2.2.1
    · exact (update_access_proj env.now env.refreshResp _).2.2.2.2.1

/-- C9: in single-access mode nothing ever stores a refresh token:
initialization leaves the refresh fields unset and the file absent, the
full-authentication loop and authenticate-before-use preserve the refresh
fields and the file and send no refresh grant, and a detected access-token
expiry triggers full re-authentication. -/
theorem C9_single_access_never_stores (env : Env) (s : TDState) (cfg : TDConfig)
    (store : Bool) (fs : Option (String × Int))
    (hsingle : s.is_single_access = true) :
    ((td_init env cfg store true fs).1.tokens.refresh_token = none
      ∧ (td_init env cfg store true fs).1.tokens.refresh_expiration = none
      ∧ (td_init env cfg store true fs).1.file = none
      ∧ ∀ q ∈ (td_init env cfg store true fs).2, q.isRefreshGrant = false)
    ∧ ((_get_access_token env s).1.tokens.refresh_token = s.tokens.refresh_token
      ∧ (_get_access_token env s).1.tokens.refresh_expiration = s.tokens.refresh_expiration
      ∧ (_get_access_token env s).1.file = s.file
      ∧ ∀ q ∈ (_get_access_token env s).2, q.isRefreshGrant = false)
    ∧ (∀ s1 tr, _authenticate env s = Except.ok (s1, tr) →
        s1.tokens.refresh_token = s.tokens.refresh_token
        ∧ s1.tokens.refresh_expiration = s.tokens.refresh_expiration
        ∧ s1.file = s.file
        ∧ ∀ q ∈ tr, q.isRefreshGrant = false)
    ∧ (∀ ae, s.tokens.access_expiration = some ae → ae - 30 < env.now →
        _authenticate env s = Except.ok (_get_access_token env s)) := by
  have htrace : ∀ t, ∀ q ∈ (get_access_token_go env 0 3 t).2, q.isRefreshGrant = false := by
    intro t q hq
    obtain ⟨c, rfl⟩ := go_trace_auth env 3 0 t q hq
    rfl
  refine ⟨?_, ?_, ?_, ?_⟩
  · cases fs with
    | none =>
      simp only [td_init, _init_authentication, init_state]
      obtain ⟨f1, f2, f3⟩ := go_single_frame env 3 0 (init_state cfg store true none) rfl
      exact ⟨f1, f2, f3, htrace _⟩
    | some p =>
      obtain ⟨rt, re⟩ := p
      simp only [td_init, _init_authentication, init_state]
      rw [if_pos (Or.inr trivial)]
      obtain ⟨f1, f2, f3⟩ := go_single_frame env 3 0
        { init_state cfg store true (some (rt, re)) with file := none } rfl
      exact ⟨f1, f2, f3, htrace _⟩
  · obtain ⟨f1, f2, f3⟩ := go_single_frame env 3 0 s hsingle
    exact ⟨f1, f2, f3, htrace _⟩
  · intro s1 tr heq
    cases hae : s.tokens.access_expiration with
    | none => simp [_authenticate, hae] at heq
    | some ae =>
      simp only [_authenticate, hae] at heq
      by_cases h30 : ae - 30 < env.now
      · rw [if_pos (And.intro hsingle h30)] at heq
        obtain ⟨h1, h2⟩ := ok_pair_inj heq
        obtain ⟨f1, f2, f3⟩ := go_single_frame env 3 0 s hsingle
        rw [← h1, ← h2]
        exact ⟨f1, f2, f3, htrace _⟩
      · have h5 : ¬ (ae - 5 < env.now) := by omega
        have hns : ¬ (s.is_single_access = true ∧ ae - 30 < env.now) := fun h => h30 h.2
        rw [if_neg hns, if_neg h5] at heq
        obtain ⟨h1, h2⟩ := ok_pair_inj heq
        rw [← h1, ← h2]
        exact ⟨rfl, rfl, rfl, by intro q hq; simp at hq⟩
  · intro ae hae h30
    simp only [_authenticate, hae]
    rw [if_pos (And.intro hsingle h30)]

/-- C1 counterexample: a manager whose three initial full-authentication
attempts all failed is reachable with `access_expiration` unset, and on it
reading `access_token` (or calling `headers`) propagates a `TypeError` from
`None - timedelta(...)` instead of returning the false sentinel or the
`(None, None)` pair. -/
theorem C1_counterexample :
    (td_init envFail cfg0 true false none).1.tokens.access_expiration = none
    ∧ access_token envFail (td_init envFail cfg0 true false none).1
        = Except.error typeErrorSub
    ∧ headers envFail "quotes" none (td_init envFail cfg0 true false none).1
        = Except.error typeErrorSub :=
  ⟨rfl, rfl, rfl⟩

/-- C1 amended: when `access_expiration` is set (and, if a normal-mode
refresh would be triggered, `refresh_expiration` is set too), reading
`access_token` runs authenticate-before-use and then returns the stored
token exactly when the logged-in flag of the resulting state is set and the
false sentinel otherwise, without raising; `headers` on a state left logged
out returns the `(None, None)` pair; with `access_expiration` unset both
instead raise `TypeError`. -/
theorem C1_amended_access_token_total (env : Env) (s : TDState) (ae : Int)
    (hae : s.tokens.access_expiration = some ae)
    (hsafe : s.is_single_access = true ∨ ¬ (ae - 5 < env.now)
      ∨ s.tokens.refresh_expiration ≠ none) :
    ∃ s1 tr, _authenticate env s = Except.ok (s1, tr)
      ∧ access_token env s =
          Except.ok (s1, tr,
            if s1.logged_in_state then TokenValue.str s1.tokens.access_token
            else TokenValue.boolFalse)
      ∧ (s1.logged_in_state = false →
          ∀ endpoint mode, headers env endpoint mode s =
            Except.ok (s1, tr, HeadersResult.nonePair)) := by
  have hok : ∃ p, _authenticate env s = Except.ok p := by
    simp only [_authenticate, hae]
    by_cases h1 : s.is_single_access = true ∧ ae - 30 < env.now
    · rw [if_pos h1]
      exact ⟨_, rfl⟩
    · rw [if_neg h1]
      by_cases h2 : ae - 5 < env.now
      · rw [if_pos h2]
        rcases hsafe with hs | hs | hs
        · exfalso
          have h30 : ¬ (ae - 30 < env.now) := fun hlt => h1 ⟨hs, hlt⟩
          omega
        · exact absurd h2 hs
        · cases hre : s.tokens.refresh_expiration with
          | none => exact absurd hre hs
          | some re =>
            simp only [_refresh_access_token, hre]
            exact ⟨_, rfl⟩
      · rw [if_neg h2]
        exact ⟨_, rfl⟩
  obtain ⟨⟨s1, tr⟩, heq⟩ := hok
  refine ⟨s1, tr, heq, ?_, ?_⟩
  · simp only [access_token, heq]
    by_cases hf : s1.logged_in_state = true
    · rw [if_pos hf, if_pos hf]
    · rw [if_neg hf, if_neg hf]
  · intro hfl endpoint mode
    have hnf : ¬ (s1.logged_in_state = true) := by simp [hfl]
    simp only [headers, heq]
    rw [if_neg hnf]

/-- C5 counterexample: on the logged-in state `sLive` the endpoint
`http://[` has scheme http, yet `headers` propagates the `ValueError`
raised by `urlparse` on the unbalanced bracket instead of returning the
endpoint unchanged. -/
theorem C5_counterexample :
    headers envOK "http://[" none sLive
      = Except.error "ValueError: Invalid IPv6 URL" := rfl

/-- C5 amended: on a logged-in state whose access token is at least 30 s
from expiry, and for every endpoint accepted by the URL parser, `headers`
returns the endpoint unchanged when its parsed scheme is http or https and
otherwise the `urljoin` of the fixed base with the slash-stripped endpoint
(when that join itself parses), paired with headers that contain the bearer
Authorization entry and contain the JSON content type exactly when `mode`
is `application/json`; in particular joining `quotes` yields the base plus
`quotes`. Endpoints rejected by the parser (unbalanced brackets in an
authority) raise `ValueError` instead. -/
theorem C5_amended_headers (env : Env) (s : TDState) (ae : Int) (endpoint : String)
    (mode : Option String) (pr : UrlParseResult)
    (hlog : s.logged_in_state = true)
    (hae : s.tokens.access_expiration = some ae)
    (hfresh : ¬ (ae - 30 < env.now))
    (hparse : urlparseE endpoint "" = Except.ok pr) :
    ∃ h,
      (("Authorization", "Bearer " ++ pyStr s.tokens.access_token) ∈ h)
      ∧ ((("Content-type", "application/json") ∈ h) ↔ mode = some "application/json")
      ∧ ((pr.scheme = "http" ∨ pr.scheme = "https") →
          headers env endpoint mode s = Except.ok (s, [], HeadersResult.pair endpoint h))
      ∧ (∀ u, ¬ (pr.scheme = "http" ∨ pr.scheme = "https") →
          urljoin_td (lstripSlash endpoint) = Except.ok u →
          headers env endpoint mode s = Except.ok (s, [], HeadersResult.pair u h))
      ∧ urljoin_td "quotes" = Except.ok "https://api.tdameritrade.com/v1/quotes" := by
  have hA := authenticate_noop env s ae hae hfresh
  refine ⟨if mode = some "application/json" then
      [("Authorization", "Bearer " ++ pyStr s.tokens.access_token),
        ("Content-type", "application/json")]
    else [("Authorization", "Bearer " ++ pyStr s.tokens.access_token)],
    ?_, ?_, ?_, ?_, rfl⟩
  · by_cases hm : mode = some "application/json" <;> simp [hm]
  · by_cases hm : mode = some "application/json" <;> simp [hm]
  · intro hsch
    simp only [headers, hA, hlog, if_true, hparse]
    rw [if_pos hsch]
    rfl
  · intro u hsch hjoin
    simp only [headers, hA, hlog, if_true, hparse]
    rw [if_neg hsch]
    simp only [hjoin]
    rfl

/-- Parse result of the relative endpoint `quotes`. -/
def prQuotes : UrlParseResult := ⟨"", "", "quotes", "", "", ""⟩

/-- Witness for the amended C1 at the concrete logged-in state `sLive`. -/
theorem C1_amended_witness :
    sLive.tokens.access_expiration = some 1000000
    ∧ ∃ s1 tr, _authenticate envOK sLive = Except.ok (s1, tr)
        ∧ access_token envOK sLive =
            Except.ok (s1, tr,
              if s1.logged_in_state then TokenValue.str s1.tokens.access_token
              else TokenValue.boolFalse)
        ∧ (s1.logged_in_state = false →
            ∀ endpoint mode, headers envOK endpoint mode sLive =
              Except.ok (s1, tr, HeadersResult.nonePair)) :=
  ⟨rfl, C1_amended_access_token_total envOK sLive 1000000 rfl
    (Or.inr (Or.inl (by decide)))⟩

/-- Witness for C2 at the expiring single-access state `sSingle`. -/
theorem C2_witness :
    _authenticate envOK sSingle =
      Except.ok (if (10 : Int) - 30 < envOK.now then _get_access_token envOK sSingle
        else (sSingle, [])) :=
  ((C2_authenticate_policy envOK sSingle 10 rfl).1 rfl).1

/-- Witness for C3 at the state `sNear` whose refresh token is near expiry. -/
theorem C3_witness :
    _refresh_access_token envOK sNear = Except.ok (_get_access_token envOK sNear) :=
  (C3_refresh_near_expiry envOK sNear 50000 rfl (by decide)).1

/-- Witness for C4 in the always-failing environment: three exchanges, then
a logged-out state with tokens and file unchanged. -/
theorem C4_witness :
    _get_access_token envFail sLive =
      ({ sLive with logged_in_state := false },
        [Request.authCodeExchange none, Request.authCodeExchange none,
          Request.authCodeExchange none]) :=
  (C4_full_auth_retry_policy envFail sLive).2.2 (fun i _ => by simp [envFail, respFail])

/-- Witness for C6 at `sLive` with a successful refresh reply. -/
theorem C6_witness :
    ∃ s1,
      _refresh_access_token envOK sLive =
        Except.ok (s1,
          [Request.refreshGrant sLive.tokens.refresh_token sLive.td_config.client_id])
      ∧ s1.tokens.access_token = some envOK.refreshResp.access_token
      ∧ s1.tokens.access_expiration = some (envOK.now + ACCESS_DURATION)
      ∧ s1.logged_in_state = true
      ∧ s1.tokens.refresh_token = sLive.tokens.refresh_token
      ∧ s1.tokens.refresh_expiration = sLive.tokens.refresh_expiration
      ∧ s1.td_config = sLive.td_config
      ∧ s1.store_refresh_token = sLive.store_refresh_token
      ∧ s1.is_single_access = sLive.is_single_access
      ∧ s1.file = sLive.file :=
  C6_refresh_success_frame envOK sLive 9000000 rfl (by decide) rfl

/-- Witness for C7: a concrete access-token update stamps now plus 1800. -/
theorem C7_witness :
    (_update_access_token 5 respOK sLive).tokens.access_expiration
      = some (5 + ACCESS_DURATION) :=
  (C7_expiration_invariant envOK sLive respOK 5).1

/-- Witness for C8: a concrete persisting update writes the in-memory pair. -/
theorem C8_witness :
    (_update_refresh_token 5 respOK sLive).file
      = some (respOK.refresh_token, 5 + REFRESH_DURATION) :=
  (C8_persist_roundtrip envOK cfg0 sLive respOK 5 "RTOK" 9000000 rfl (by decide) rfl).1.1

/-- Witness for C9: the expiring single-access state triggers full
re-authentication. -/
theorem C9_witness :
    _authenticate envOK sSingle = Except.ok (_get_access_token envOK sSingle) :=
  (C9_single_access_never_stores envOK sSingle cfg0 true none rfl).2.2.2 10 rfl (by decide)

/-- Witness for C10 at the reachable all-attempts-failed state. -/
theorem C10_witness :
    td_repr 0 (td_init envFail cfg0 true false none).1 = Except.error typeErrorCmp :=
  C10_repr_type_error 0 (td_init envFail cfg0 true false none).1 rfl

/-- Witness for the amended C5 at `sLive` with the relative endpoint
`quotes`. -/
theorem C5_amended_witness :
    sLive.logged_in_state = true
    ∧ ∃ h,
        (("Authorization", "Bearer " ++ pyStr sLive.tokens.access_token) ∈ h)
        ∧ ((("Content-type", "application/json") ∈ h)
            ↔ (none : Option String) = some "application/json")
        ∧ ((prQuotes.scheme = "http" ∨ prQuotes.scheme = "https") →
            headers envOK "quotes" none sLive =
              Except.ok (sLive, [], HeadersResult.pair "quotes" h))
        ∧ (∀ u, ¬ (prQuotes.scheme = "http" ∨ prQuotes.scheme = "https") →
            urljoin_td (lstripSlash "quotes") = Except.ok u →
            headers envOK "quotes" none sLive =
              Except.ok (sLive, [], HeadersResult.pair u h))
        ∧ urljoin_td "quotes" = Except.ok "https://api.tdameritrade.com/v1/quotes" :=
  ⟨rfl, C5_amended_headers envOK sLive 1000000 "quotes" none prQuotes rfl rfl
    (by decide) rfl⟩

end TDAuth
